import Mathlib

/-!
Shallow embedding of `src/configuration.ts` of vscode-makefile-tools.

The TypeScript module keeps module-level mutable state (current configuration
name, target, launch configuration, settings mirrors, the resolved command) and
reacts to VS Code events.  Here the state is an explicit structure, the settings
store is an explicit structure, and each handler is a pure function from the
old state (plus the observed store / file content) to the new state together
with observable effects (reparse requests, log/error flags).

JavaScript value conventions that the embedding mirrors:
* `undefined` is `Option.none`; a `string | undefined` is `Option String`.
* JS truthiness on strings: `""` and `undefined` are falsy; `a || b` on strings
  is `jsOrS`.
* `!==` on two `string | undefined` primitives is plain value inequality;
  `!==` between a freshly deserialized object and an in-memory object is
  reference inequality, hence true whenever either side is defined (see
  `launchStrictNeq` below).
-/

namespace MakefileTools

/-- JS `a || d` for `a : string | undefined` with `""` falsy (string truthiness). -/
def jsOrS (a : Option String) (d : String) : String :=
  match a with
  | some s => if s = "" then d else s
  | none => d

/-- JS truthiness filter: `undefined` and `""` are falsy, anything else truthy. -/
def jsTruthy (a : Option String) : Option String :=
  match a with
  | some s => if s = "" then none else some s
  | none => none

/-- Split a list around the LAST occurrence of `c`, returning
(elements before it, elements after it); `none` when `c` does not occur. -/
def splitLastOn (c : Char) : List Char → Option (List Char × List Char)
  | [] => none
  | x :: xs =>
    match splitLastOn c xs with
    | some (b, a) => some (x :: b, a)
    | none => if x = c then some ([], xs) else none

/-- JS `String.prototype.split` with a one-character separator, on char lists:
`splitOnChar c [] = [[]]` (JS `"".split(",") === [""]`). -/
def splitOnChar (c : Char) : List Char → List (List Char)
  | [] => [[]]
  | x :: xs =>
    match splitOnChar c xs with
    | [] => [[]]
    | h :: t => if x = c then [] :: h :: t else (x :: h) :: t

/-- Node `path.isAbsolute` (posix). -/
def pathIsAbsolute (p : String) : Bool :=
  p.data.head? = some '/'

/-- Node `path.join` for the two-argument uses in the source.  Normalization of
`.`/`..` segments is not modelled; no theorem below feeds such segments. -/
def pathJoin (a b : String) : String :=
  if a.data = [] then b
  else if b.data = [] then a
  else if a.data.getLast? = some '/' then ⟨a.data ++ b.data⟩
  else ⟨a.data ++ '/' :: b.data⟩

/-- The `dir`/`name` fields of Node `path.parse` (the only fields the source
reads). -/
structure ParsedPath where
  dir : String
  name : String
deriving DecidableEq, Repr

/-- Name component of a basename: strip the extension after the last dot, but a
dot in first position (hidden files) or the special names `.`/`..` keep the
whole basename. -/
def baseNameOf (base : List Char) : String :=
  if base = ['.'] ∨ base = ['.', '.'] then ⟨base⟩
  else
    match splitLastOn '.' base with
    | none => ⟨base⟩
    | some (b, _) => if b = [] then ⟨base⟩ else ⟨b⟩

/-- Node `path.parse` (posix), restricted to the `dir` and `name` fields. -/
def parsePath (p : String) : ParsedPath :=
  let l := p.data
  if l = [] then ⟨"", ""⟩
  else
    let s := (l.reverse.dropWhile (· = '/')).reverse
    if s = [] then ⟨"/", ""⟩
    else
      match splitLastOn '/' s with
      | none => ⟨"", baseNameOf s⟩
      | some (b, base) =>
        let dir := if b = [] then (if l.head? = some '/' then "/" else "") else String.mk b
        ⟨dir, baseNameOf base⟩

/-- `MakeConfiguration` of the source: a named build scenario read from
`.vscode/make_configurations.json`; `commandName`, `commandArgs`, `buildLog`
are optional fields. -/
structure MakeConfiguration where
  name : String
  commandName : Option String := none
  commandArgs : Option (List String) := none
  buildLog : Option String := none
deriving DecidableEq, Repr

/-- The `makeConfigurations.find(k => k.name === configuration)` lookup used by
both resolution helpers (`configuration` may be `undefined`). -/
def findConfiguration (cfgs : List MakeConfiguration) (configuration : Option String) :
    Option MakeConfiguration :=
  cfgs.find? (fun k => some k.name == configuration)

/-- `getCommandForConfiguration`: resolve the effective command name and args
for a configuration name, given the configuration set and the
`Makefile.makePath` setting.  Returns (configurationCommandName,
configurationCommandArgs). -/
def getCommandForConfiguration (cfgs : List MakeConfiguration) (makePath : Option String)
    (configuration : Option String) : String × List String :=
  let makeConfiguration := findConfiguration cfgs configuration
  let makeParsedPathSettings := (jsTruthy makePath).map parsePath
  let makeParsedPathConfigurations :=
    (jsTruthy (makeConfiguration.bind (·.commandName))).map parsePath
  let configurationCommandArgs := (makeConfiguration.bind (·.commandArgs)).getD []
  let configurationCommandName :=
    jsOrS (makeParsedPathConfigurations.map (·.name))
      (jsOrS (makeParsedPathSettings.map (·.name)) "make")
  let configurationCommandPath :=
    jsOrS (makeParsedPathConfigurations.map (·.dir))
      (jsOrS (makeParsedPathSettings.map (·.dir)) "")
  (pathJoin configurationCommandPath configurationCommandName, configurationCommandArgs)

/-- `getBuildLogForConfiguration`: the per-configuration `buildLog` (made
absolute against the workspace root when relative) wins; otherwise fall back to
the settings-level build log (`buildLog` module variable, already absolutized
by `readBuildLog`).  A `""` field is falsy in JS and falls through. -/
def getBuildLogForConfiguration (cfgs : List MakeConfiguration)
    (configuration : Option String) (rootPath : Option String)
    (settingsBuildLog : Option String) : Option String :=
  let makeConfiguration := findConfiguration cfgs configuration
  match jsTruthy (makeConfiguration.bind (·.buildLog)) with
  | some bl =>
    if pathIsAbsolute bl then some bl else some (pathJoin (rootPath.getD "") bl)
  | none => settingsBuildLog

/-- `LaunchConfiguration` of the source: a debuggable binary with its working
directory and arguments. -/
structure LaunchConfiguration where
  binary : String
  cwd : String
  args : List String
deriving DecidableEq, Repr

/-- Modelled from the spec: `util.makeRelPath` lives in `util.ts`, which is not
under `src/`.  Section 4.5 describes it as `pathRelativeTo(binary, cwd)`: the
path of `binary` expressed relative to `cwd` (here: strip a leading `cwd/`
prefix; a path not under `cwd` is kept as is). -/
def makeRelPath (fullPath curPath : String) : String :=
  if (curPath.data ++ ['/']).isPrefixOf fullPath.data then
    ⟨fullPath.data.drop (curPath.data.length + 1)⟩
  else fullPath

/-- Modelled from the spec: `util.makeFullPath` lives in `util.ts`, which is
not under `src/`.  Section 4.5: decoding "resolves `binary` to an absolute
path by joining the relative form against `cwd`" (an already-absolute form is
kept as is). -/
def makeFullPath (relPath curPath : String) : String :=
  if pathIsAbsolute relPath then relPath else pathJoin curPath relPath

/-- JS `args.join(",")` on char lists. -/
def joinArgsChars : List String → List Char
  | [] => []
  | [a] => a.data
  | a :: rest => a.data ++ ',' :: joinArgsChars rest

/-- `launchConfigurationToString`:
`cwd + ">" + makeRelPath(binary, cwd) + "(" + args.join(",") + ")"`. -/
def launchConfigurationToString (configuration : LaunchConfiguration) : String :=
  ⟨configuration.cwd.data
    ++ '>' :: (makeRelPath configuration.binary configuration.cwd).data
    ++ '(' :: joinArgsChars configuration.args
    ++ [')']⟩

/-- One-line match of the regex `(.*)\>(.*)\((.*)\)` (greedy, `.` does not
cross line boundaries; the caller splits into lines).  Greedy backtracking on
this pattern is equivalent to: take the last `)`, the last `(` before it, the
last `>` before that; the three groups are the segments between them. -/
def matchLCLine (l : List Char) : Option (List Char × List Char × List Char) :=
  match splitLastOn ')' l with
  | none => none
  | some (beforeClose, _) =>
    match splitLastOn '(' beforeClose with
    | none => none
    | some (beforeOpen, g3) =>
      match splitLastOn '>' beforeOpen with
      | none => none
      | some (g1, g2) => some (g1, g2, g3)

/-- First line (in order) on which the regex matches, as `RegExp.exec` finds
the first match position in the subject string. -/
def firstMatch : List (List Char) → Option (List Char × List Char × List Char)
  | [] => none
  | l :: ls =>
    match matchLCLine l with
    | some m => some m
    | none => firstMatch ls

/-- `stringToLaunchConfiguration`: run `(.*)\>(.*)\((.*)\)` against the string
(JS `.` does not match a newline, so the match lives inside one line), rebuild
the absolute binary path with `makeFullPath`, and split the third group on `,`
(JS `"".split(",") === [""]`). -/
def stringToLaunchConfiguration (str : String) : Option LaunchConfiguration :=
  match firstMatch (splitOnChar '\n' str.data) with
  | some (g1, g2, g3) =>
    some
      { cwd := ⟨g1⟩
        binary := makeFullPath ⟨g2⟩ ⟨g1⟩
        args := (splitOnChar ',' g3).map String.mk }
  | none => none

/-- The six tracked keys of the `Makefile.*` settings namespace, as an opaque
key/value store.  `launchConfiguration` is persisted as a structured value
(`setLaunchConfigurationByName` writes the `LaunchConfiguration` object). -/
structure SettingsStore where
  buildConfiguration : Option String
  buildTarget : Option String
  launchConfiguration : Option LaunchConfiguration
  buildLog : Option String
  extensionLog : Option String
  makePath : Option String
deriving DecidableEq, Repr

/-- The module-level mutable variables of `configuration.ts`, as one record. -/
structure ExtensionState where
  currentMakeConfiguration : String
  currentTarget : String
  currentLaunchConfiguration : Option LaunchConfiguration
  makePath : Option String
  buildLog : Option String
  extensionLog : Option String
  configurationCommandName : String
  configurationCommandArgs : List String
  configurationBuildLog : Option String
  makeConfigurations : List MakeConfiguration
  ignoreSettingsChanged : Bool
deriving DecidableEq, Repr

/-- Workspace facts the handlers consult: `vscode.workspace.rootPath` and
whether `vscode.workspace.workspaceFolders` is non-empty. -/
structure Env where
  rootPath : Option String
  hasWorkspaceFolders : Bool
deriving DecidableEq, Repr

/-- `vscode.workspace.rootPath + "/.vscode/make_configurations.json"` (JS string
concatenation renders an undefined root as the text `undefined`). -/
def configurationsJsonPath (env : Env) : String :=
  (match env.rootPath with
    | some r => r
    | none => "undefined") ++ "/.vscode/make_configurations.json"

/-- `readCurrentMakeConfiguration`: a falsy stored value defaults to
`"Default"`. -/
def readCurrentMakeConfiguration (store : SettingsStore) : String :=
  jsOrS store.buildConfiguration "Default"

/-- `readCurrentTarget`: a falsy stored value leaves the in-memory target the
empty-string sentinel. -/
def readCurrentTarget (store : SettingsStore) : String :=
  jsOrS store.buildTarget ""

/-- `readCurrentLaunchConfiguration`: memory takes the stored value (or
`undefined`). -/
def readCurrentLaunchConfiguration (store : SettingsStore) : Option LaunchConfiguration :=
  store.launchConfiguration

/-- `readMakePath`: the raw stored value. -/
def readMakePath (store : SettingsStore) : Option String :=
  store.makePath

/-- `readBuildLog`: the stored value, made absolute against the workspace root
when truthy and relative. -/
def readBuildLog (env : Env) (store : SettingsStore) : Option String :=
  match store.buildLog with
  | none => none
  | some bl =>
    if bl = "" then some ""
    else if pathIsAbsolute bl then some bl
    else some (pathJoin (env.rootPath.getD "") bl)

/-- `readExtensionLog`: the stored value, made absolute against the workspace
root when truthy and relative. -/
def readExtensionLog (env : Env) (store : SettingsStore) : Option String :=
  match store.extensionLog with
  | none => none
  | some el =>
    if el = "" then some ""
    else if pathIsAbsolute el then some el
    else some (pathJoin (env.rootPath.getD "") el)

/-- Observable outcome of `readMakeConfigurations`: the resulting in-memory
set, whether `showErrorMessage` fired, and whether the missing-file
informational line was logged. -/
structure ReadConfigsResult where
  configs : List MakeConfiguration
  errorShown : Bool
  loggedMissingInfo : Bool
deriving DecidableEq, Repr

/-- State of `.vscode/make_configurations.json` on disk: absent, present but
not valid JSON, or present with a parsed record list. -/
inductive ConfigFile where
  | missing
  | invalid
  | valid (cfgs : List MakeConfiguration)
deriving DecidableEq, Repr

/-- `readMakeConfigurations`: a missing file only logs (the in-memory array is
left as it was); a parse failure shows a user-visible error and leaves the
array as it was; valid content replaces the array. -/
def readMakeConfigurations (file : ConfigFile) (prev : List MakeConfiguration) :
    ReadConfigsResult :=
  match file with
  | .missing => ⟨prev, false, true⟩
  | .invalid => ⟨prev, true, false⟩
  | .valid cfgs => ⟨cfgs, false, false⟩

/-- `getCommandForConfiguration` applied to the module state (updates
`configurationCommandName`/`configurationCommandArgs`). -/
def recomputeCommand (s : ExtensionState) : ExtensionState :=
  let c := getCommandForConfiguration s.makeConfigurations s.makePath
    (some s.currentMakeConfiguration)
  { s with configurationCommandName := c.1, configurationCommandArgs := c.2 }

/-- `getBuildLogForConfiguration` applied to the module state (updates
`configurationBuildLog`). -/
def recomputeBuildLog (env : Env) (s : ExtensionState) : ExtensionState :=
  { s with
    configurationBuildLog :=
      getBuildLogForConfiguration s.makeConfigurations (some s.currentMakeConfiguration)
        env.rootPath s.buildLog }

/-- `readCurrentMakeConfigurationCommand`: re-read the configurations file,
then recompute the effective command and build log.  Second component: whether
the JSON-parse error dialog fired. -/
def readCurrentMakeConfigurationCommand (env : Env) (file : ConfigFile)
    (s : ExtensionState) : ExtensionState × Bool :=
  let r := readMakeConfigurations file s.makeConfigurations
  let s1 := { s with makeConfigurations := r.configs }
  (recomputeBuildLog env (recomputeCommand s1), r.errorShown)

/-- `initFromSettings` (state initialization part, before the listeners are
installed): read every tracked key, load the configurations file into the
initially empty array, and resolve command and build log. -/
def initFromSettings (env : Env) (file : ConfigFile) (store : SettingsStore) :
    ExtensionState :=
  let s0 : ExtensionState :=
    { currentMakeConfiguration := readCurrentMakeConfiguration store
      currentTarget := readCurrentTarget store
      currentLaunchConfiguration := readCurrentLaunchConfiguration store
      makePath := readMakePath store
      buildLog := readBuildLog env store
      extensionLog := readExtensionLog env store
      configurationCommandName := ""
      configurationCommandArgs := []
      configurationBuildLog := none
      makeConfigurations := []
      ignoreSettingsChanged := false }
  (readCurrentMakeConfigurationCommand env file s0).1

/-- JS `updatedLaunchConfiguration !== currentLaunchConfiguration`, where the
left side is freshly fetched from the store (a new deserialized object on each
`get`) and the right side is the in-memory object.  Strict equality across
those is reference equality, so it holds only when both are `undefined`. -/
def launchStrictNeq (stored mem : Option LaunchConfiguration) : Bool :=
  !(stored.isNone && mem.isNone)

/-- Observable outcome of one `onDidChangeConfiguration` notification. -/
structure SettingsChangeResult where
  state : ExtensionState
  updateConfigProvider : Bool
  launchReread : Bool
  reparseCount : Nat
deriving DecidableEq, Repr

/-- Condition of the handler's `buildConfiguration` branch:
`updatedBuildConfiguration !== currentMakeConfiguration &&
(updatedBuildConfiguration !== undefined || currentMakeConfiguration !== "Default")`. -/
def cfgChangedB (s : ExtensionState) (store : SettingsStore) : Bool :=
  (store.buildConfiguration != some s.currentMakeConfiguration)
    && (store.buildConfiguration != (none : Option String)
        || s.currentMakeConfiguration != "Default")

/-- Condition of the handler's `buildTarget` branch. -/
def targetChangedB (s : ExtensionState) (store : SettingsStore) : Bool :=
  (store.buildTarget != some s.currentTarget)
    && (store.buildTarget != (none : Option String) || s.currentTarget != "")

/-- Condition of the handler's `launchConfiguration` branch (strict inequality
between the freshly fetched value and the in-memory object). -/
def launchChangedB (s : ExtensionState) (store : SettingsStore) : Bool :=
  launchStrictNeq store.launchConfiguration s.currentLaunchConfiguration

/-- Condition of the handler's `buildLog` branch. -/
def buildLogChangedB (s : ExtensionState) (store : SettingsStore) : Bool :=
  store.buildLog != s.buildLog

/-- Condition of the handler's `extensionLog` branch. -/
def extensionLogChangedB (s : ExtensionState) (store : SettingsStore) : Bool :=
  store.extensionLog != s.extensionLog

/-- Condition of the handler's `makePath` branch. -/
def makePathChangedB (s : ExtensionState) (store : SettingsStore) : Bool :=
  store.makePath != s.makePath

/-- The handler's `buildConfiguration` branch: re-read memory when changed. -/
def applyCfgRead (s : ExtensionState) (store : SettingsStore) : ExtensionState :=
  if cfgChangedB s store then
    { s with currentMakeConfiguration := readCurrentMakeConfiguration store }
  else s

/-- The handler's `buildTarget` branch. -/
def applyTargetRead (s : ExtensionState) (store : SettingsStore) : ExtensionState :=
  if targetChangedB s store then { s with currentTarget := readCurrentTarget store } else s

/-- The handler's `launchConfiguration` branch. -/
def applyLaunchRead (s : ExtensionState) (store : SettingsStore) : ExtensionState :=
  if launchChangedB s store then
    { s with currentLaunchConfiguration := readCurrentLaunchConfiguration store }
  else s

/-- The handler's `buildLog` branch. -/
def applyBuildLogRead (env : Env) (s : ExtensionState) (store : SettingsStore) :
    ExtensionState :=
  if buildLogChangedB s store then { s with buildLog := readBuildLog env store } else s

/-- The handler's `extensionLog` branch. -/
def applyExtensionLogRead (env : Env) (s : ExtensionState) (store : SettingsStore) :
    ExtensionState :=
  if extensionLogChangedB s store then { s with extensionLog := readExtensionLog env store }
  else s

/-- The handler's `makePath` branch. -/
def applyMakePathRead (s : ExtensionState) (store : SettingsStore) : ExtensionState :=
  if makePathChangedB s store then { s with makePath := readMakePath store } else s

/-- The `onDidChangeConfiguration` handler body of `initFromSettings`: compare
each tracked key of the (current) store against memory in the source's order,
re-read the changed ones, and when any of the four IntelliSense-relevant
branches fired (`updateConfigProvider`), recompute the effective command and
build log and call `make.parseBuildOrDryRun()` once.  Each branch's condition
is evaluated against the state as already updated by the earlier branches,
exactly as the sequential source does. -/
def handleSettingsChanged (env : Env) (s : ExtensionState) (store : SettingsStore)
    (affectsMakefile : Bool) : SettingsChangeResult :=
  if env.hasWorkspaceFolders && !s.ignoreSettingsChanged && affectsMakefile then
    let s1 := applyCfgRead s store
    let s2 := applyTargetRead s1 store
    let s3 := applyLaunchRead s2 store
    let s4 := applyBuildLogRead env s3 store
    let s5 := applyExtensionLogRead env s4 store
    let s6 := applyMakePathRead s5 store
    let updateConfigProvider := cfgChangedB s store || targetChangedB s1 store
      || buildLogChangedB s3 store || makePathChangedB s5 store
    if updateConfigProvider then
      ⟨recomputeBuildLog env (recomputeCommand s6), true, launchChangedB s2 store, 1⟩
    else
      ⟨s6, false, launchChangedB s2 store, 0⟩
  else ⟨s, false, false, 0⟩

/-- Observable outcome of one `onDidSaveTextDocument` notification. -/
structure FileSavedResult where
  state : ExtensionState
  errorShown : Bool
  reparseCount : Nat
deriving DecidableEq, Repr

/-- The `onDidSaveTextDocument` handler of `initFromSettings`: when the saved
path is the configurations file and the guard is off, reload the file,
recompute, and request one full reparse (`path.normalize` is modelled as the
identity: only equality of the two paths matters here). -/
def handleConfigFileSaved (env : Env) (s : ExtensionState) (savedPath : String)
    (file : ConfigFile) : FileSavedResult :=
  if savedPath == configurationsJsonPath env && !s.ignoreSettingsChanged then
    let r := readCurrentMakeConfigurationCommand env file s
    ⟨r.1, r.2, 1⟩
  else ⟨s, false, 0⟩

/-- Result of one of the three programmatic setters: new memory state, new
store content, and how many direct `make.parseBuildOrDryRun()` calls it made. -/
structure WriteResult where
  state : ExtensionState
  store : SettingsStore
  reparseCount : Nat
deriving DecidableEq, Repr

/-- `setConfigurationByName`: update memory, write the store, recompute command
and build log (via `setCurrentMakeConfiguration`), and reparse once.  Note: it
never touches `ignoreSettingsChanged`. -/
def setConfigurationByName (env : Env) (configurationName : String)
    (s : ExtensionState) (store : SettingsStore) : WriteResult :=
  let s1 := { s with currentMakeConfiguration := configurationName }
  let store1 := { store with buildConfiguration := some configurationName }
  ⟨recomputeBuildLog env (recomputeCommand s1), store1, 1⟩

/-- `setTargetByName`: update memory, write the store, reparse once.  Never
touches `ignoreSettingsChanged`. -/
def setTargetByName (targetName : String) (s : ExtensionState) (store : SettingsStore) :
    WriteResult :=
  ⟨{ s with currentTarget := targetName },
   { store with buildTarget := some targetName }, 1⟩

/-- `setLaunchConfigurationByName`: decode the chosen string, update memory,
write the store (`currentLaunchConfiguration || undefined`).  No reparse.
Never touches `ignoreSettingsChanged`. -/
def setLaunchConfigurationByName (launchConfigurationName : String)
    (s : ExtensionState) (store : SettingsStore) : WriteResult :=
  let lc := stringToLaunchConfiguration launchConfigurationName
  ⟨{ s with currentLaunchConfiguration := lc },
   { store with launchConfiguration := lc }, 0⟩

/-- An external notification observed by the reconciliation controller. -/
inductive ReconciliationEvent where
  | settingsChanged (store : SettingsStore) (affectsMakefile : Bool)
  | configurationFileSaved (savedPath : String) (file : ConfigFile)
deriving DecidableEq, Repr

/-- Dispatch one notification; second component counts reparse requests. -/
def stepEvent (env : Env) (s : ExtensionState) : ReconciliationEvent → ExtensionState × Nat
  | .settingsChanged store affects =>
    let r := handleSettingsChanged env s store affects
    (r.state, r.reparseCount)
  | .configurationFileSaved p file =>
    let r := handleConfigFileSaved env s p file
    (r.state, r.reparseCount)

/-- Run a sequence of notifications, accumulating reparse requests. -/
def runEvents (env : Env) (s : ExtensionState) : List ReconciliationEvent → ExtensionState × Nat
  | [] => (s, 0)
  | e :: es =>
    let r := stepEvent env s e
    let rest := runEvents env r.1 es
    (rest.1, r.2 + rest.2)

/-- Lexicographic comparison of character lists (JS string comparison; JS
compares UTF-16 code units, identical to code points for the names at play). -/
def charListLe : List Char → List Char → Bool
  | [], _ => true
  | _ :: _, [] => false
  | a :: as, b :: bs => if a < b then true else if b < a then false else charListLe as bs

/-- JS `a <= b` on strings. -/
def strLe (a b : String) : Bool :=
  charListLe a.data b.data

/-- JS `Array.prototype.sort()` on an array of strings: a stable sort by the
lexicographic string order (modelled with insertion sort). -/
def jsSortStrings (l : List String) : List String :=
  l.insertionSort (fun a b => strLe a b = true)

/-- `parseTargetsFromBuildLog`: when the effective build log has readable
content, parse it with the external parser and sort the names; otherwise
`undefined`.  `parseTargets` is the external parser (out of scope per the
spec), `buildLogContent` the result of `util.readFile` (`undefined` when the
configuration build log is unset or unreadable; `""` content is falsy). -/
def parseTargetsFromBuildLog (parseTargets : String → List String)
    (buildLogContent : Option String) : Option (List String) :=
  match buildLogContent with
  | some content =>
    if content = "" then none else some (jsSortStrings (parseTargets content))
  | none => none

/-- Observable outcome of `setNewTarget` up to the selection prompt: whether a
make process was spawned, and the target list handed to the prompt when the
build-log path was taken. -/
structure TargetDiscovery where
  spawned : Bool
  prompted : Option (List String)
deriving DecidableEq, Repr

/-- `setNewTarget` (build-log path): when the build log yields targets, prompt
with them and return without spawning; otherwise spawn the dry-run process. -/
def setNewTarget (parseTargets : String → List String)
    (buildLogContent : Option String) : TargetDiscovery :=
  match parseTargetsFromBuildLog parseTargets buildLogContent with
  | some makefileTargets => ⟨false, some makefileTargets⟩
  | none => ⟨true, none⟩

/-- No two adjacent slashes anywhere in the character list: well-formedness of
an absolute path used by the codec round trip (decidable by evaluation). -/
def noAdjacentSlashes : List Char → Bool
  | [] => true
  | [_] => true
  | a :: b :: rest => !(a = '/' && b = '/') && noAdjacentSlashes (b :: rest)

def anyRelevantChangedB (s : ExtensionState) (store : SettingsStore) : Bool :=
  cfgChangedB s store || targetChangedB s store || buildLogChangedB s store
    || makePathChangedB s store

/-- The stored `buildLog` values that `readBuildLog` passes through unchanged:
absent, empty (falsy), or already absolute. -/
def storedPathDirectB (o : Option String) : Bool :=
  match o with
  | none => true
  | some bl => bl == "" || pathIsAbsolute bl

/-- A parser stub whose output has a duplicated target line, as in the claim's
instance. -/
def dupTargetParse : String → List String := fun _ => ["all", "clean", "clean"]

def envC9 : Env := { rootPath := some "/proj", hasWorkspaceFolders := true }

def storeC9 : SettingsStore :=
  { buildConfiguration := some "Cfg", buildTarget := some "tgt", launchConfiguration := none,
    buildLog := some "logs/b.log", extensionLog := none, makePath := none }

def suppressedState : ExtensionState :=
  { initFromSettings envC9 .missing storeC9 with ignoreSettingsChanged := true }

def envC10 : Env := { rootPath := some "/proj", hasWorkspaceFolders := true }

def storeC10 : SettingsStore :=
  { buildConfiguration := none, buildTarget := none,
    launchConfiguration := some { binary := "/p/bin", cwd := "/p", args := [] },
    buildLog := none, extensionLog := none, makePath := none }

def stateC10 : ExtensionState := initFromSettings envC10 .missing storeC10

def envC5 : Env := { rootPath := some "/root", hasWorkspaceFolders := true }

def storeC5 : SettingsStore :=
  { buildConfiguration := some "Cfg", buildTarget := some "t", launchConfiguration := none,
    buildLog := some "logs/b.log", extensionLog := none, makePath := none }

def stateC5 : ExtensionState := initFromSettings envC5 .missing storeC5

def storeC5x : SettingsStore := { storeC5 with extensionLog := some "/e.log" }

def envC5w : Env := { rootPath := some "/proj", hasWorkspaceFolders := true }

def storeC5w : SettingsStore :=
  { buildConfiguration := some "Cfg", buildTarget := some "a", launchConfiguration := none,
    buildLog := some "/abs.log", extensionLog := none, makePath := none }

def envC2 : Env := { rootPath := some "/proj", hasWorkspaceFolders := true }

def storeC2 : SettingsStore :=
  { buildConfiguration := none, buildTarget := none, launchConfiguration := none,
    buildLog := none, extensionLog := none, makePath := none }

def stateC2 : ExtensionState := initFromSettings envC2 .missing storeC2

/-! Helper lemmas. -/

theorem applyCfgRead_ct (s : ExtensionState) (store : SettingsStore) :
    (applyCfgRead s store).currentTarget = s.currentTarget := by
  unfold applyCfgRead; split <;> rfl

theorem applyCfgRead_clc (s : ExtensionState) (store : SettingsStore) :
    (applyCfgRead s store).currentLaunchConfiguration = s.currentLaunchConfiguration := by
  unfold applyCfgRead; split <;> rfl

theorem applyCfgRead_bl (s : ExtensionState) (store : SettingsStore) :
    (applyCfgRead s store).buildLog = s.buildLog := by
  unfold applyCfgRead; split <;> rfl

theorem applyCfgRead_mp (s : ExtensionState) (store : SettingsStore) :
    (applyCfgRead s store).makePath = s.makePath := by
  unfold applyCfgRead; split <;> rfl

theorem applyCfgRead_ign (s : ExtensionState) (store : SettingsStore) :
    (applyCfgRead s store).ignoreSettingsChanged = s.ignoreSettingsChanged := by
  unfold applyCfgRead; split <;> rfl

theorem applyTargetRead_clc (s : ExtensionState) (store : SettingsStore) :
    (applyTargetRead s store).currentLaunchConfiguration = s.currentLaunchConfiguration := by
  unfold applyTargetRead; split <;> rfl

theorem applyTargetRead_bl (s : ExtensionState) (store : SettingsStore) :
    (applyTargetRead s store).buildLog = s.buildLog := by
  unfold applyTargetRead; split <;> rfl

theorem applyTargetRead_mp (s : ExtensionState) (store : SettingsStore) :
    (applyTargetRead s store).makePath = s.makePath := by
  unfold applyTargetRead; split <;> rfl

theorem applyTargetRead_ign (s : ExtensionState) (store : SettingsStore) :
    (applyTargetRead s store).ignoreSettingsChanged = s.ignoreSettingsChanged := by
  unfold applyTargetRead; split <;> rfl

theorem applyLaunchRead_bl (s : ExtensionState) (store : SettingsStore) :
    (applyLaunchRead s store).buildLog = s.buildLog := by
  unfold applyLaunchRead; split <;> rfl

theorem applyLaunchRead_mp (s : ExtensionState) (store : SettingsStore) :
    (applyLaunchRead s store).makePath = s.makePath := by
  unfold applyLaunchRead; split <;> rfl

theorem applyLaunchRead_ign (s : ExtensionState) (store : SettingsStore) :
    (applyLaunchRead s store).ignoreSettingsChanged = s.ignoreSettingsChanged := by
  unfold applyLaunchRead; split <;> rfl

theorem applyLaunchRead_clc (s : ExtensionState) (store : SettingsStore) :
    (applyLaunchRead s store).currentLaunchConfiguration
      = if launchChangedB s store then store.launchConfiguration
        else s.currentLaunchConfiguration := by
  unfold applyLaunchRead readCurrentLaunchConfiguration; split <;> simp_all

theorem applyBuildLogRead_mp (env : Env) (s : ExtensionState) (store : SettingsStore) :
    (applyBuildLogRead env s store).makePath = s.makePath := by
  unfold applyBuildLogRead; split <;> rfl

theorem applyBuildLogRead_ign (env : Env) (s : ExtensionState) (store : SettingsStore) :
    (applyBuildLogRead env s store).ignoreSettingsChanged = s.ignoreSettingsChanged := by
  unfold applyBuildLogRead; split <;> rfl

theorem applyBuildLogRead_clc (env : Env) (s : ExtensionState) (store : SettingsStore) :
    (applyBuildLogRead env s store).currentLaunchConfiguration
      = s.currentLaunchConfiguration := by
  unfold applyBuildLogRead; split <;> rfl

theorem applyExtensionLogRead_mp (env : Env) (s : ExtensionState) (store : SettingsStore) :
    (applyExtensionLogRead env s store).makePath = s.makePath := by
  unfold applyExtensionLogRead; split <;> rfl

theorem applyExtensionLogRead_ign (env : Env) (s : ExtensionState) (store : SettingsStore) :
    (applyExtensionLogRead env s store).ignoreSettingsChanged = s.ignoreSettingsChanged := by
  unfold applyExtensionLogRead; split <;> rfl

theorem applyExtensionLogRead_clc (env : Env) (s : ExtensionState) (store : SettingsStore) :
    (applyExtensionLogRead env s store).currentLaunchConfiguration
      = s.currentLaunchConfiguration := by
  unfold applyExtensionLogRead; split <;> rfl

theorem applyMakePathRead_ign (s : ExtensionState) (store : SettingsStore) :
    (applyMakePathRead s store).ignoreSettingsChanged = s.ignoreSettingsChanged := by
  unfold applyMakePathRead; split <;> rfl

theorem applyMakePathRead_clc (s : ExtensionState) (store : SettingsStore) :
    (applyMakePathRead s store).currentLaunchConfiguration
      = s.currentLaunchConfiguration := by
  unfold applyMakePathRead; split <;> rfl

theorem targetChangedB_applyCfgRead (s : ExtensionState) (store : SettingsStore) :
    targetChangedB (applyCfgRead s store) store = targetChangedB s store := by
  unfold targetChangedB; rw [applyCfgRead_ct]

theorem launchChangedB_applyCfgRead (s : ExtensionState) (store : SettingsStore) :
    launchChangedB (applyCfgRead s store) store = launchChangedB s store := by
  unfold launchChangedB; rw [applyCfgRead_clc]

theorem launchChangedB_applyTargetRead (s : ExtensionState) (store : SettingsStore) :
    launchChangedB (applyTargetRead s store) store = launchChangedB s store := by
  unfold launchChangedB; rw [applyTargetRead_clc]

theorem buildLogChangedB_applyCfgRead (s : ExtensionState) (store : SettingsStore) :
    buildLogChangedB (applyCfgRead s store) store = buildLogChangedB s store := by
  unfold buildLogChangedB; rw [applyCfgRead_bl]

theorem buildLogChangedB_applyTargetRead (s : ExtensionState) (store : SettingsStore) :
    buildLogChangedB (applyTargetRead s store) store = buildLogChangedB s store := by
  unfold buildLogChangedB; rw [applyTargetRead_bl]

theorem buildLogChangedB_applyLaunchRead (s : ExtensionState) (store : SettingsStore) :
    buildLogChangedB (applyLaunchRead s store) store = buildLogChangedB s store := by
  unfold buildLogChangedB; rw [applyLaunchRead_bl]

theorem makePathChangedB_applyCfgRead (s : ExtensionState) (store : SettingsStore) :
    makePathChangedB (applyCfgRead s store) store = makePathChangedB s store := by
  unfold makePathChangedB; rw [applyCfgRead_mp]

theorem makePathChangedB_applyTargetRead (s : ExtensionState) (store : SettingsStore) :
    makePathChangedB (applyTargetRead s store) store = makePathChangedB s store := by
  unfold makePathChangedB; rw [applyTargetRead_mp]

theorem makePathChangedB_applyLaunchRead (s : ExtensionState) (store : SettingsStore) :
    makePathChangedB (applyLaunchRead s store) store = makePathChangedB s store := by
  unfold makePathChangedB; rw [applyLaunchRead_mp]

theorem makePathChangedB_applyBuildLogRead (env : Env) (s : ExtensionState)
    (store : SettingsStore) :
    makePathChangedB (applyBuildLogRead env s store) store = makePathChangedB s store := by
  unfold makePathChangedB; rw [applyBuildLogRead_mp]

theorem makePathChangedB_applyExtensionLogRead (env : Env) (s : ExtensionState)
    (store : SettingsStore) :
    makePathChangedB (applyExtensionLogRead env s store) store = makePathChangedB s store := by
  unfold makePathChangedB; rw [applyExtensionLogRead_mp]

theorem hsc_reparseCount (env : Env) (s : ExtensionState) (store : SettingsStore)
    (h1 : env.hasWorkspaceFolders = true) (h2 : s.ignoreSettingsChanged = false) :
    (handleSettingsChanged env s store true).reparseCount
      = if anyRelevantChangedB s store then 1 else 0 := by
  simp only [handleSettingsChanged, h1, h2, Bool.not_false, Bool.and_true, Bool.true_and,
    if_true, targetChangedB_applyCfgRead,
    buildLogChangedB_applyCfgRead, buildLogChangedB_applyTargetRead,
    buildLogChangedB_applyLaunchRead,
    makePathChangedB_applyCfgRead, makePathChangedB_applyTargetRead,
    makePathChangedB_applyLaunchRead, makePathChangedB_applyBuildLogRead,
    makePathChangedB_applyExtensionLogRead, anyRelevantChangedB]
  split <;> simp

theorem hsc_updateConfigProvider (env : Env) (s : ExtensionState) (store : SettingsStore)
    (h1 : env.hasWorkspaceFolders = true) (h2 : s.ignoreSettingsChanged = false) :
    (handleSettingsChanged env s store true).updateConfigProvider
      = anyRelevantChangedB s store := by
  simp only [handleSettingsChanged, h1, h2, Bool.not_false, Bool.and_true, Bool.true_and,
    if_true, targetChangedB_applyCfgRead,
    buildLogChangedB_applyCfgRead, buildLogChangedB_applyTargetRead,
    buildLogChangedB_applyLaunchRead,
    makePathChangedB_applyCfgRead, makePathChangedB_applyTargetRead,
    makePathChangedB_applyLaunchRead, makePathChangedB_applyBuildLogRead,
    makePathChangedB_applyExtensionLogRead, anyRelevantChangedB]
  split <;> simp_all

theorem hsc_launchReread (env : Env) (s : ExtensionState) (store : SettingsStore)
    (h1 : env.hasWorkspaceFolders = true) (h2 : s.ignoreSettingsChanged = false) :
    (handleSettingsChanged env s store true).launchReread = launchChangedB s store := by
  simp only [handleSettingsChanged, h1, h2, Bool.not_false, Bool.and_true, Bool.true_and,
    if_true, launchChangedB_applyCfgRead, launchChangedB_applyTargetRead]
  split <;> rfl

theorem hsc_state_clc (env : Env) (s : ExtensionState) (store : SettingsStore)
    (h1 : env.hasWorkspaceFolders = true) (h2 : s.ignoreSettingsChanged = false) :
    (handleSettingsChanged env s store true).state.currentLaunchConfiguration
      = if launchChangedB s store then store.launchConfiguration
        else s.currentLaunchConfiguration := by
  simp only [handleSettingsChanged, h1, h2, Bool.not_false, Bool.and_true, Bool.true_and,
    if_true]
  have hclc : (applyMakePathRead (applyExtensionLogRead env (applyBuildLogRead env
      (applyLaunchRead (applyTargetRead (applyCfgRead s store) store) store) store) store)
        store).currentLaunchConfiguration
      = if launchChangedB s store then store.launchConfiguration
        else s.currentLaunchConfiguration := by
    rw [applyMakePathRead_clc, applyExtensionLogRead_clc, applyBuildLogRead_clc,
      applyLaunchRead_clc, launchChangedB_applyTargetRead, launchChangedB_applyCfgRead,
      applyTargetRead_clc, applyCfgRead_clc]
  split
  · simpa [recomputeBuildLog, recomputeCommand] using hclc
  · simpa using hclc

theorem hsc_reparseCount_le_one (env : Env) (s : ExtensionState) (store : SettingsStore)
    (affects : Bool) :
    (handleSettingsChanged env s store affects).reparseCount ≤ 1 := by
  simp only [handleSettingsChanged]
  split
  · split <;> simp
  · simp


theorem mk_eq_empty {l : List Char} (h : String.mk l = "") : l = [] :=
  congrArg String.data h

theorem data_ne_nil_of_ne_empty {b : String} (hb : b ≠ "") : b.data ≠ [] := by
  intro h
  apply hb
  cases b with
  | mk l => exact (congrArg String.mk h).trans rfl

theorem jsOrS_ne_empty (a : Option String) {d : String} (hd : d ≠ "") : jsOrS a d ≠ "" := by
  unfold jsOrS
  match a with
  | none => exact hd
  | some s =>
    by_cases hs : s = "" <;> simp [hs, hd]

theorem pathJoin_ne_empty (a : String) {b : String} (hb : b ≠ "") : pathJoin a b ≠ "" := by
  have hbd : b.data ≠ [] := data_ne_nil_of_ne_empty hb
  unfold pathJoin
  by_cases h1 : a.data = []
  · simp [h1, hb]
  · by_cases h2 : b.data = []
    · exact absurd h2 hbd
    · by_cases h3 : a.data.getLast? = some '/'
      · simp only [if_neg h1, if_neg h2, if_pos h3]
        intro h
        have h4 := mk_eq_empty h
        simp at h4
        exact h1 h4.1
      · simp only [if_neg h1, if_neg h2, if_neg h3]
        intro h
        have h4 := mk_eq_empty h
        simp at h4

theorem charListLe_total : ∀ a b : List Char, (charListLe a b || charListLe b a) = true
  | [], b => by cases b <;> simp [charListLe]
  | a :: as, [] => by simp [charListLe]
  | a :: as, b :: bs => by
    by_cases hab : a < b
    · simp [charListLe, hab]
    · by_cases hba : b < a
      · simp [charListLe, hab, hba]
      · simp only [charListLe, if_neg hab, if_neg hba]
        exact charListLe_total as bs

theorem charListLe_trans :
    ∀ a b c : List Char, charListLe a b = true → charListLe b c = true → charListLe a c = true
  | [], _, _, _, _ => rfl
  | a :: as, [], c, h, _ => by simp [charListLe] at h
  | a :: as, b :: bs, [], _, h => by simp [charListLe] at h
  | a :: as, b :: bs, c :: cs, h1, h2 => by
    by_cases hab : a < b
    · have hbc : ¬c < b := by
        intro hc
        simp [charListLe, hc, asymm hc] at h2
      have hac : a < c := lt_of_lt_of_le hab (not_lt.mp hbc)
      simp [charListLe, hac]
    · by_cases hba : b < a
      · simp [charListLe, hab, hba] at h1
      · have heq : a = b := le_antisymm (not_lt.mp hba) (not_lt.mp hab)
        subst heq
        by_cases hac : a < c
        · simp [charListLe, hac]
        · by_cases hca : c < a
          · simp [charListLe, hac, hca] at h2
          · simp only [charListLe, if_neg hab, if_neg hba] at h1
            simp only [charListLe, if_neg hac, if_neg hca] at h2 ⊢
            exact charListLe_trans as bs cs h1 h2

theorem readBuildLog_direct (env : Env) (store : SettingsStore)
    (h : storedPathDirectB store.buildLog = true) :
    readBuildLog env store = store.buildLog := by
  unfold readBuildLog
  cases hbl : store.buildLog with
  | none => rfl
  | some bl =>
    rw [hbl] at h
    simp only [storedPathDirectB] at h
    by_cases he : bl = ""
    · simp [he]
    · simp [he] at h ⊢
      simp [h]

theorem init_ign (env : Env) (file : ConfigFile) (store : SettingsStore) :
    (initFromSettings env file store).ignoreSettingsChanged = false := rfl

theorem init_cm (env : Env) (file : ConfigFile) (store : SettingsStore) :
    (initFromSettings env file store).currentMakeConfiguration
      = jsOrS store.buildConfiguration "Default" := rfl

theorem init_ct (env : Env) (file : ConfigFile) (store : SettingsStore) :
    (initFromSettings env file store).currentTarget = jsOrS store.buildTarget "" := rfl

theorem init_clc (env : Env) (file : ConfigFile) (store : SettingsStore) :
    (initFromSettings env file store).currentLaunchConfiguration
      = store.launchConfiguration := rfl

theorem init_mp (env : Env) (file : ConfigFile) (store : SettingsStore) :
    (initFromSettings env file store).makePath = store.makePath := rfl

theorem init_bl (env : Env) (file : ConfigFile) (store : SettingsStore) :
    (initFromSettings env file store).buildLog = readBuildLog env store := rfl

theorem cfgChangedB_of_eq (s : ExtensionState) (store : SettingsStore)
    (h : store.buildConfiguration = some s.currentMakeConfiguration) :
    cfgChangedB s store = false := by
  simp [cfgChangedB, h]

theorem cfgChangedB_synced (s : ExtensionState) (store : SettingsStore)
    (h : s.currentMakeConfiguration = jsOrS store.buildConfiguration "Default")
    (hne : store.buildConfiguration ≠ some "") :
    cfgChangedB s store = false := by
  cases hbc : store.buildConfiguration with
  | none =>
    rw [hbc] at h
    simp [jsOrS] at h
    simp [cfgChangedB, hbc, h]
  | some x =>
    have hx : x ≠ "" := by
      intro he
      exact hne (by rw [hbc, he])
    rw [hbc] at h
    simp [jsOrS, hx] at h
    simp [cfgChangedB, hbc, h]

theorem cfgChangedB_freshly (s : ExtensionState) (store : SettingsStore)
    (hcm : s.currentMakeConfiguration ≠ "")
    (h : jsOrS store.buildConfiguration "Default" ≠ s.currentMakeConfiguration) :
    cfgChangedB s store = true := by
  cases hbc : store.buildConfiguration with
  | none =>
    rw [hbc] at h
    simp [jsOrS] at h
    simp [cfgChangedB, hbc, Ne.symm h]
  | some x =>
    by_cases hx : x = ""
    · subst hx
      simp [cfgChangedB, hbc, Ne.symm hcm]
    · rw [hbc] at h
      simp [jsOrS, hx] at h
      simp [cfgChangedB, hbc, h]

theorem targetChangedB_of_eq (s : ExtensionState) (store : SettingsStore)
    (h : store.buildTarget = some s.currentTarget) :
    targetChangedB s store = false := by
  simp [targetChangedB, h]

theorem targetChangedB_synced (s : ExtensionState) (store : SettingsStore)
    (h : s.currentTarget = jsOrS store.buildTarget "") :
    targetChangedB s store = false := by
  cases hbt : store.buildTarget with
  | none =>
    rw [hbt] at h
    simp [jsOrS] at h
    simp [targetChangedB, hbt, h]
  | some t =>
    by_cases ht : t = ""
    · subst ht
      rw [hbt] at h
      simp [jsOrS] at h
      simp [targetChangedB, hbt, h]
    · rw [hbt] at h
      simp [jsOrS, ht] at h
      simp [targetChangedB, hbt, h]

theorem targetChangedB_freshly (s : ExtensionState) (store : SettingsStore)
    (h : jsOrS store.buildTarget "" ≠ s.currentTarget) :
    targetChangedB s store = true := by
  cases hbt : store.buildTarget with
  | none =>
    rw [hbt] at h
    simp [jsOrS] at h
    simp [targetChangedB, hbt, Ne.symm h]
  | some t =>
    by_cases ht : t = ""
    · subst ht
      rw [hbt] at h
      simp [jsOrS] at h
      simp [targetChangedB, hbt, h]
    · rw [hbt] at h
      simp [jsOrS, ht] at h
      simp [targetChangedB, hbt, h]

theorem buildLogChangedB_of_eq (s : ExtensionState) (store : SettingsStore)
    (h : s.buildLog = store.buildLog) :
    buildLogChangedB s store = false := by
  simp [buildLogChangedB, h]

theorem buildLogChangedB_of_ne (s : ExtensionState) (store : SettingsStore)
    (h : store.buildLog ≠ s.buildLog) :
    buildLogChangedB s store = true := by
  simp [buildLogChangedB, h]

theorem makePathChangedB_of_eq (s : ExtensionState) (store : SettingsStore)
    (h : s.makePath = store.makePath) :
    makePathChangedB s store = false := by
  simp [makePathChangedB, h]

theorem makePathChangedB_of_ne (s : ExtensionState) (store : SettingsStore)
    (h : store.makePath ≠ s.makePath) :
    makePathChangedB s store = true := by
  simp [makePathChangedB, h]

theorem splitLastOn_of_not_mem {c : Char} : ∀ {l : List Char}, c ∉ l → splitLastOn c l = none
  | [], _ => rfl
  | x :: xs, h => by
    have hx : x ≠ c := fun he => h (he ▸ List.mem_cons_self x xs)
    have hxs : c ∉ xs := fun hm => h (List.mem_cons_of_mem x hm)
    simp [splitLastOn, splitLastOn_of_not_mem hxs, hx]

theorem splitLastOn_append (c : Char) :
    ∀ (xs : List Char) {ys : List Char}, c ∉ ys →
      splitLastOn c (xs ++ c :: ys) = some (xs, ys)
  | [], ys, h => by
    simp [splitLastOn, splitLastOn_of_not_mem h]
  | x :: xs, ys, h => by
    simp [splitLastOn, splitLastOn_append c xs h]

theorem splitOnChar_ne_nil (c : Char) : ∀ (l : List Char), splitOnChar c l ≠ []
  | [] => by simp [splitOnChar]
  | x :: xs => by
    simp only [splitOnChar]
    match hx : splitOnChar c xs with
    | [] => simp
    | h :: t => by_cases hxc : x = c <;> simp [hxc]

theorem splitOnChar_of_not_mem {c : Char} : ∀ {l : List Char}, c ∉ l → splitOnChar c l = [l]
  | [], _ => rfl
  | x :: xs, h => by
    have hx : x ≠ c := fun he => h (he ▸ List.mem_cons_self x xs)
    have hxs : c ∉ xs := fun hm => h (List.mem_cons_of_mem x hm)
    simp [splitOnChar, splitOnChar_of_not_mem hxs, hx]

theorem splitOnChar_append (c : Char) :
    ∀ (xs ys : List Char), c ∉ xs →
      splitOnChar c (xs ++ c :: ys) = xs :: splitOnChar c ys
  | [], ys, _ => by
    obtain ⟨h, t, he⟩ := List.exists_cons_of_ne_nil (splitOnChar_ne_nil c ys)
    simp [splitOnChar, he]
  | x :: xs, ys, h => by
    have hx : x ≠ c := fun he => h (he ▸ List.mem_cons_self x xs)
    have hxs : c ∉ xs := fun hm => h (List.mem_cons_of_mem x hm)
    simp [splitOnChar, splitOnChar_append c xs ys hxs, hx]

theorem not_mem_joinArgsChars {c : Char} (hc : c ≠ ',') :
    ∀ {args : List String}, (∀ a ∈ args, c ∉ a.data) → c ∉ joinArgsChars args
  | [], _ => by simp [joinArgsChars]
  | [a], h => by
    simpa [joinArgsChars] using h a (by simp)
  | a :: b :: rest, h => by
    simp only [joinArgsChars, List.mem_append, List.mem_cons]
    push_neg
    refine ⟨h a (by simp), hc, ?_⟩
    exact not_mem_joinArgsChars hc (fun x hx => h x (List.mem_cons_of_mem a hx))

theorem splitOnChar_joinArgsChars :
    ∀ {args : List String}, args ≠ [] → (∀ a ∈ args, ',' ∉ a.data) →
      splitOnChar ',' (joinArgsChars args) = args.map String.data
  | [], h, _ => absurd rfl h
  | [a], _, h => by
    simp [joinArgsChars, splitOnChar_of_not_mem (h a (by simp))]
  | a :: b :: rest, _, h => by
    have hrest : splitOnChar ',' (joinArgsChars (b :: rest)) = (b :: rest).map String.data :=
      splitOnChar_joinArgsChars (by simp) (fun x hx => h x (List.mem_cons_of_mem a hx))
    simp only [joinArgsChars]
    rw [splitOnChar_append ',' a.data (joinArgsChars (b :: rest)) (h a (by simp)), hrest]
    simp

theorem map_mk_map_data : ∀ args : List String, (args.map String.data).map String.mk = args
  | [] => rfl
  | a :: rest => by
    have := map_mk_map_data rest
    cases a
    simp_all

theorem not_mem_makeRelPath {c : Char} (b w : String) (h : c ∉ b.data) :
    c ∉ (makeRelPath b w).data := by
  unfold makeRelPath
  split
  · intro hm
    exact h (List.mem_of_mem_drop hm)
  · exact h

theorem makeFullPath_makeRelPath (b w : String)
    (hw : pathIsAbsolute w = true)
    (hb : pathIsAbsolute b = true)
    (hnd : List.Chain' (fun a d => ¬(a = '/' ∧ d = '/')) b.data)
    (hlast : b.data.getLast? ≠ some '/') :
    makeFullPath (makeRelPath b w) w = b := by
  unfold makeRelPath
  by_cases hp : (w.data ++ ['/']).isPrefixOf b.data
  · rw [if_pos hp]
    obtain ⟨rest, hrest⟩ := List.isPrefixOf_iff_prefix.mp hp
    have hdrop : b.data.drop (w.data.length + 1) = rest := by
      have hlen : w.data.length + 1 = (w.data ++ ['/']).length := by simp
      rw [← hrest, hlen, List.drop_left]
    rw [hdrop]
    have hrest_ne : rest ≠ [] := by
      intro h0
      apply hlast
      rw [← hrest, h0, List.append_nil]
      exact List.getLast?_concat _
    obtain ⟨r0, rest', hr⟩ := List.exists_cons_of_ne_nil hrest_ne
    have hchain := hnd
    rw [← hrest, List.append_assoc] at hchain
    simp only [List.cons_append, List.nil_append] at hchain
    obtain ⟨-, hc2, hc3⟩ := List.chain'_append.mp hchain
    have hr0 : r0 ≠ '/' := by
      intro h0
      rw [hr] at hc2
      exact (List.chain'_cons.mp hc2).1 ⟨rfl, h0⟩
    have hwlast : w.data.getLast? ≠ some '/' := by
      intro h0
      exact hc3 '/' (by rw [h0]; rfl) '/' rfl ⟨rfl, rfl⟩
    have hwne : w.data ≠ [] := by
      intro h0
      unfold pathIsAbsolute at hw
      rw [h0] at hw
      simp at hw
    unfold makeFullPath
    rw [if_neg (by unfold pathIsAbsolute; rw [hr]; simp [hr0])]
    unfold pathJoin
    rw [if_neg (by simpa using hwne), if_neg (by simpa using hrest_ne), if_neg (by simpa using hwlast)]
    have hfin : w.data ++ '/' :: rest = b.data := by
      rw [← hrest, List.append_assoc]
      rfl
    rw [hfin]
  · rw [if_neg hp]
    unfold makeFullPath
    rw [if_pos hb]

theorem chain'_of_noAdjacentSlashes :
    ∀ {l : List Char}, noAdjacentSlashes l = true →
      List.Chain' (fun a d => ¬(a = '/' ∧ d = '/')) l
  | [], _ => List.chain'_nil
  | [a], _ => List.chain'_singleton a
  | a :: b :: rest, h => by
    simp only [noAdjacentSlashes, Bool.and_eq_true, Bool.not_eq_true'] at h
    refine List.chain'_cons.mpr ⟨?_, chain'_of_noAdjacentSlashes h.2⟩
    rintro ⟨ha, hb⟩
    rw [ha, hb] at h
    simp at h

theorem not_mem_encoded {c : Char} (C R J : List Char)
    (h1 : c ∉ C) (h2 : c ∉ R) (h3 : c ∉ J)
    (h4 : c ≠ '>') (h5 : c ≠ '(') (h6 : c ≠ ')') :
    c ∉ C ++ '>' :: R ++ '(' :: J ++ [')'] := by
  intro hm
  rcases List.mem_append.mp hm with h | h
  · rcases List.mem_append.mp h with h | h
    · rcases List.mem_append.mp h with h | h
      · exact h1 h
      · rcases List.mem_cons.mp h with h | h
        · exact h4 h
        · exact h2 h
    · rcases List.mem_cons.mp h with h | h
      · exact h5 h
      · exact h3 h
  · rcases List.mem_cons.mp h with h | h
    · exact h6 h
    · exact absurd h (List.not_mem_nil c)

theorem matchLCLine_encoded (C R J : List Char)
    (hR : '>' ∉ R) (hJ : '(' ∉ J) :
    matchLCLine (C ++ '>' :: R ++ '(' :: J ++ [')']) = some (C, R, J) := by
  have e1 : splitLastOn ')' (C ++ '>' :: R ++ '(' :: J ++ [')'])
      = some (C ++ '>' :: R ++ '(' :: J, []) :=
    splitLastOn_append ')' _ (List.not_mem_nil ')')
  have e2 : splitLastOn '(' (C ++ '>' :: R ++ '(' :: J) = some (C ++ '>' :: R, J) :=
    splitLastOn_append '(' _ hJ
  have e3 : splitLastOn '>' (C ++ '>' :: R) = some (C, R) := splitLastOn_append '>' C hR
  simp only [matchLCLine, e1, e2, e3]

/-! Claims. -/

/-- Claim C3: the directory and the base name of the effective tool are
resolved independently across the configuration record and the global
make-path setting, the record winning for each part when it supplies one
(record directory beats settings directory, record base name beats settings
base name), then joined — stated for every configuration set, matched record
and make-path value; in particular a record `commandName` of `nmake` with
global make path `/usr/bin/make` resolves to `/usr/bin/nmake` with the
record's args, and a record `commandName` of `/opt/nmake` keeps its own
directory, resolving to `/opt/nmake` despite the settings directory. -/
theorem claim_C3 :
    (∀ (cfgs : List MakeConfiguration) (configuration : Option String)
        (c : MakeConfiguration) (cmdName mp : String) (commandArgs : List String),
      findConfiguration cfgs configuration = some c →
      c.commandName = some cmdName →
      c.commandArgs = some commandArgs →
      getCommandForConfiguration cfgs (some mp) configuration
        = (pathJoin
            (if (parsePath cmdName).dir = "" then (parsePath mp).dir
              else (parsePath cmdName).dir)
            (if (parsePath cmdName).name = "" then
                (if (parsePath mp).name = "" then "make" else (parsePath mp).name)
              else (parsePath cmdName).name),
            commandArgs)) ∧
    getCommandForConfiguration
        [{ name := "A", commandName := some "nmake", commandArgs := some ["/f", "Foo"] }]
        (some "/usr/bin/make") (some "A")
      = ("/usr/bin/nmake", ["/f", "Foo"]) ∧
    getCommandForConfiguration
        [{ name := "A", commandName := some "/opt/nmake", commandArgs := some ["/f"] }]
        (some "/usr/bin/make") (some "A")
      = ("/opt/nmake", ["/f"]) := by
  refine ⟨?_, by decide, by decide⟩
  intro cfgs configuration c cmdName mp commandArgs hfind hcmd hargs
  have h0 : parsePath "" = ⟨"", ""⟩ := rfl
  by_cases hc : cmdName = ""
  · subst hc
    by_cases hm : mp = ""
    · subst hm
      simp [getCommandForConfiguration, hfind, hcmd, hargs, jsTruthy, jsOrS, h0]
    · simp [getCommandForConfiguration, hfind, hcmd, hargs, jsTruthy, jsOrS, h0, hm]
      by_cases hsd : (parsePath mp).dir = "" <;> simp [hsd]
  · by_cases hm : mp = ""
    · subst hm
      simp [getCommandForConfiguration, hfind, hcmd, hargs, jsTruthy, jsOrS, h0, hc]
    · simp [getCommandForConfiguration, hfind, hcmd, hargs, jsTruthy, jsOrS, hc, hm]
      by_cases hsd : (parsePath mp).dir = "" <;> simp [hsd]

theorem claim_C3_witness :
    findConfiguration
        [{ name := "A", commandName := some "/opt/nmake", commandArgs := some ["/f"] }]
        (some "A")
      = some { name := "A", commandName := some "/opt/nmake", commandArgs := some ["/f"] } ∧
    ({ name := "A", commandName := some "/opt/nmake",
        commandArgs := some ["/f"] } : MakeConfiguration).commandName = some "/opt/nmake" ∧
    ({ name := "A", commandName := some "/opt/nmake",
        commandArgs := some ["/f"] } : MakeConfiguration).commandArgs = some ["/f"] ∧
    getCommandForConfiguration
        [{ name := "A", commandName := some "/opt/nmake", commandArgs := some ["/f"] }]
        (some "/usr/bin/make") (some "A")
      = (pathJoin
          (if (parsePath "/opt/nmake").dir = "" then (parsePath "/usr/bin/make").dir
            else (parsePath "/opt/nmake").dir)
          (if (parsePath "/opt/nmake").name = "" then
              (if (parsePath "/usr/bin/make").name = "" then "make"
                else (parsePath "/usr/bin/make").name)
            else (parsePath "/opt/nmake").name),
          ["/f"]) :=
  ⟨by decide, by decide, by decide,
    claim_C3.1
      [{ name := "A", commandName := some "/opt/nmake", commandArgs := some ["/f"] }]
      (some "A")
      { name := "A", commandName := some "/opt/nmake", commandArgs := some ["/f"] }
      "/opt/nmake" "/usr/bin/make" ["/f"] (by decide) (by decide) (by decide)⟩

/-- Claim C4: with no matching configuration record and no global make path,
resolution yields the literal `"make"` with empty args; and the resolved
command name is never the empty string, for any inputs. -/
theorem claim_C4 :
    (∀ (cfgs : List MakeConfiguration) (configuration : Option String),
      findConfiguration cfgs configuration = none →
      getCommandForConfiguration cfgs none configuration = ("make", [])) ∧
    (∀ (cfgs : List MakeConfiguration) (makePath configuration : Option String),
      (getCommandForConfiguration cfgs makePath configuration).1 ≠ "") := by
  constructor
  · intro cfgs configuration h
    simp [getCommandForConfiguration, h, jsTruthy, jsOrS, pathJoin]
  · intro cfgs makePath configuration
    apply pathJoin_ne_empty
    apply jsOrS_ne_empty
    apply jsOrS_ne_empty
    decide

theorem claim_C4_witness :
    findConfiguration [] (some "X") = none ∧
    getCommandForConfiguration [] none (some "X") = ("make", []) :=
  ⟨by decide, claim_C4.1 [] (some "X") (by decide)⟩

/-- Claim C6 counterexample: a parse yielding "all", "clean", "clean" is handed
to the prompt sorted but NOT deduplicated (`parseTargetsFromBuildLog` only
sorts; the dedup step exists only in `parseLaunchConfigurations`), so the
result is not `["all", "clean"]`. -/
theorem claim_C6_counterexample :
    (setNewTarget dupTargetParse (some "build log text")).prompted ≠ some ["all", "clean"] := by
  decide

/-- Claim C6 (amended): target discovery from a readable build log returns the
parsed names lexicographically sorted, with duplicates retained, and spawns no
process; for a parse yielding "all", "clean", "clean" the result is exactly
["all", "clean", "clean"]. -/
theorem claim_C6 :
    (∀ (parseTargets : String → List String) (content : String),
      content ≠ "" →
      setNewTarget parseTargets (some content)
          = { spawned := false,
              prompted := some (jsSortStrings (parseTargets content)) } ∧
      List.Sorted (fun a b => strLe a b = true) (jsSortStrings (parseTargets content))) ∧
    setNewTarget dupTargetParse (some "build log text")
      = { spawned := false, prompted := some ["all", "clean", "clean"] } := by
  constructor
  · intro parseTargets content hc
    constructor
    · simp [setNewTarget, parseTargetsFromBuildLog, hc]
    · haveI : IsTotal String (fun a b => strLe a b = true) :=
        ⟨fun a b => by
          have h := charListLe_total a.data b.data
          simp only [strLe]
          rcases Bool.or_eq_true_iff.mp h with h2 | h2
          · exact Or.inl h2
          · exact Or.inr h2⟩
      haveI : IsTrans String (fun a b => strLe a b = true) :=
        ⟨fun a b c h1 h2 => charListLe_trans a.data b.data c.data h1 h2⟩
      exact List.sorted_insertionSort _ _
  · decide

theorem claim_C6_witness :
    ("build log text" : String) ≠ "" ∧
    (setNewTarget dupTargetParse (some "build log text")
        = { spawned := false,
            prompted := some (jsSortStrings (dupTargetParse "build log text")) } ∧
      List.Sorted (fun a b => strLe a b = true)
        (jsSortStrings (dupTargetParse "build log text"))) :=
  ⟨by decide, claim_C6.1 dupTargetParse "build log text" (by decide)⟩

/-- Claim C7: the per-configuration `buildLog` wins over the settings-level
build log (whatever the latter is), a relative per-configuration path is
joined against the project root (`"logs/build.log"` under `/proj` gives
`/proj/logs/build.log`), and when neither source supplies a build log the
effective build log is absent. -/
theorem claim_C7 :
    (∀ (cfgs : List MakeConfiguration) (configName root settings : Option String) (bl : String),
      jsTruthy ((findConfiguration cfgs configName).bind (·.buildLog)) = some bl →
      getBuildLogForConfiguration cfgs configName root settings
        = some (if pathIsAbsolute bl then bl else pathJoin (root.getD "") bl)) ∧
    getBuildLogForConfiguration [{ name := "A", buildLog := some "logs/build.log" }]
        (some "A") (some "/proj") none
      = some "/proj/logs/build.log" ∧
    (∀ (cfgs : List MakeConfiguration) (configName root : Option String),
      jsTruthy ((findConfiguration cfgs configName).bind (·.buildLog)) = none →
      getBuildLogForConfiguration cfgs configName root none = none) := by
  refine ⟨?_, by decide, ?_⟩
  · intro cfgs configName root settings bl h
    simp [getBuildLogForConfiguration, h]
    split <;> simp
  · intro cfgs configName root h
    simp [getBuildLogForConfiguration, h]

theorem claim_C7_witness :
    jsTruthy ((findConfiguration [{ name := "A", buildLog := some "logs/build.log" }]
        (some "A")).bind (·.buildLog)) = some "logs/build.log" ∧
    getBuildLogForConfiguration [{ name := "A", buildLog := some "logs/build.log" }]
        (some "A") (some "/proj") (some "/settings.log")
      = some (if pathIsAbsolute "logs/build.log" then "logs/build.log"
          else pathJoin ((some "/proj" : Option String).getD "") "logs/build.log") :=
  ⟨by decide,
    claim_C7.1 [{ name := "A", buildLog := some "logs/build.log" }]
      (some "A") (some "/proj") (some "/settings.log") "logs/build.log" (by decide)⟩

/-- Claim C8 counterexample: when the configuration file is missing, the load
operation leaves the previous in-memory set untouched, so with a non-empty
previous set the result is not the empty set the claim requires. -/
theorem claim_C8_counterexample :
    (readMakeConfigurations .missing [{ name := "A" }]).configs ≠ [] := by
  decide

/-- Claim C8 (amended): when the configuration file is missing, the load
operation retains the previous in-memory set (hence empty at activation,
where the set starts empty) and logs only an informational event; when the
file exists but fails to parse, the previous set is retained and a
user-visible error is raised. -/
theorem claim_C8 :
    (∀ prev : List MakeConfiguration,
      readMakeConfigurations .missing prev
        = { configs := prev, errorShown := false, loggedMissingInfo := true }) ∧
    (∀ prev : List MakeConfiguration,
      readMakeConfigurations .invalid prev
        = { configs := prev, errorShown := true, loggedMissingInfo := false }) ∧
    (readMakeConfigurations .missing []).configs = [] :=
  ⟨fun _ => rfl, fun _ => rfl, rfl⟩

/-- Claim C9: while `ignoreSettingsChanged` is true, neither trigger does any
work: both handlers return the state unchanged with no re-read, no error, and
no reparse, and any sequence of notifications leaves the state unchanged with
zero total reparse requests. -/
theorem claim_C9 :
    (∀ (env : Env) (s : ExtensionState) (store : SettingsStore) (affects : Bool),
      s.ignoreSettingsChanged = true →
      handleSettingsChanged env s store affects
        = { state := s, updateConfigProvider := false, launchReread := false,
            reparseCount := 0 }) ∧
    (∀ (env : Env) (s : ExtensionState) (p : String) (file : ConfigFile),
      s.ignoreSettingsChanged = true →
      handleConfigFileSaved env s p file
        = { state := s, errorShown := false, reparseCount := 0 }) ∧
    (∀ (env : Env) (s : ExtensionState) (events : List ReconciliationEvent),
      s.ignoreSettingsChanged = true →
      runEvents env s events = (s, 0)) := by
  have hsc : ∀ (env : Env) (s : ExtensionState) (store : SettingsStore) (affects : Bool),
      s.ignoreSettingsChanged = true →
      handleSettingsChanged env s store affects
        = { state := s, updateConfigProvider := false, launchReread := false,
            reparseCount := 0 } := by
    intro env s store affects h
    simp [handleSettingsChanged, h]
  have hfs : ∀ (env : Env) (s : ExtensionState) (p : String) (file : ConfigFile),
      s.ignoreSettingsChanged = true →
      handleConfigFileSaved env s p file
        = { state := s, errorShown := false, reparseCount := 0 } := by
    intro env s p file h
    simp [handleConfigFileSaved, h]
  refine ⟨hsc, hfs, ?_⟩
  intro env s events h
  induction events with
  | nil => rfl
  | cons e es ih =>
    cases e with
    | settingsChanged store affects =>
      simp [runEvents, stepEvent, hsc env s store affects h, ih]
    | configurationFileSaved p file =>
      simp [runEvents, stepEvent, hfs env s p file h, ih]

theorem claim_C9_witness :
    suppressedState.ignoreSettingsChanged = true ∧
    runEvents envC9 suppressedState
      [.settingsChanged { storeC9 with buildTarget := some "other" } true,
       .configurationFileSaved (configurationsJsonPath envC9) .invalid,
       .settingsChanged { storeC9 with makePath := some "/usr/bin/make" } true]
      = (suppressedState, 0) :=
  ⟨rfl, claim_C9.2.2 envC9 suppressedState _ rfl⟩

/-- Claim C10: the handler compares the freshly fetched `launchConfiguration`
against the in-memory structured value with strict (reference) equality, which
never holds when both are defined; hence in that situation every Makefile
settings notification re-reads the launch configuration from the store. -/
theorem claim_C10 :
    ∀ (env : Env) (s : ExtensionState) (store : SettingsStore),
      env.hasWorkspaceFolders = true →
      s.ignoreSettingsChanged = false →
      store.launchConfiguration.isSome = true →
      s.currentLaunchConfiguration.isSome = true →
      (handleSettingsChanged env s store true).launchReread = true ∧
      (handleSettingsChanged env s store true).state.currentLaunchConfiguration
        = store.launchConfiguration := by
  intro env s store h1 h2 hs hm
  have hl : launchChangedB s store = true := by
    obtain ⟨x, hx⟩ := Option.isSome_iff_exists.mp hs
    simp [launchChangedB, launchStrictNeq, hx]
  constructor
  · rw [hsc_launchReread env s store h1 h2, hl]
  · rw [hsc_state_clc env s store h1 h2, hl]
    simp

theorem claim_C10_witness :
    envC10.hasWorkspaceFolders = true ∧
    stateC10.ignoreSettingsChanged = false ∧
    storeC10.launchConfiguration.isSome = true ∧
    stateC10.currentLaunchConfiguration.isSome = true ∧
    ((handleSettingsChanged envC10 stateC10 storeC10 true).launchReread = true ∧
      (handleSettingsChanged envC10 stateC10 storeC10 true).state.currentLaunchConfiguration
        = storeC10.launchConfiguration) :=
  ⟨rfl, rfl, rfl, rfl, claim_C10 envC10 stateC10 storeC10 rfl rfl rfl rfl⟩

/-- Claim C5 (amended): with memory initialized from the store, and provided
the stored build log is absent or an absolute path (a relative stored build log
makes the handler's raw-vs-absolutized comparison misfire, see the
counterexample) and the stored configuration name is not the empty string: a
notification changing only `extensionLog` (or only `launchConfiguration`) does
not set the reparse-required flag and requests no reparse; one changing
`buildTarget` (or `buildConfiguration`, `buildLog`, `makePath`) to an
effectively different value sets it and requests exactly one reparse; and no
notification ever requests more than one reparse. -/
theorem claim_C5 :
    (∀ (env : Env) (file : ConfigFile) (store : SettingsStore) (e' : Option String),
      env.hasWorkspaceFolders = true →
      store.buildConfiguration ≠ some "" →
      storedPathDirectB store.buildLog = true →
      (handleSettingsChanged env (initFromSettings env file store)
          { store with extensionLog := e' } true).updateConfigProvider = false ∧
      (handleSettingsChanged env (initFromSettings env file store)
          { store with extensionLog := e' } true).reparseCount = 0) ∧
    (∀ (env : Env) (file : ConfigFile) (store : SettingsStore)
        (l' : Option LaunchConfiguration),
      env.hasWorkspaceFolders = true →
      store.buildConfiguration ≠ some "" →
      storedPathDirectB store.buildLog = true →
      (handleSettingsChanged env (initFromSettings env file store)
          { store with launchConfiguration := l' } true).updateConfigProvider = false ∧
      (handleSettingsChanged env (initFromSettings env file store)
          { store with launchConfiguration := l' } true).reparseCount = 0) ∧
    (∀ (env : Env) (file : ConfigFile) (store : SettingsStore) (t' : Option String),
      env.hasWorkspaceFolders = true →
      jsOrS t' "" ≠ jsOrS store.buildTarget "" →
      (handleSettingsChanged env (initFromSettings env file store)
          { store with buildTarget := t' } true).updateConfigProvider = true ∧
      (handleSettingsChanged env (initFromSettings env file store)
          { store with buildTarget := t' } true).reparseCount = 1) ∧
    (∀ (env : Env) (file : ConfigFile) (store : SettingsStore) (b' : Option String),
      env.hasWorkspaceFolders = true →
      jsOrS b' "Default" ≠ jsOrS store.buildConfiguration "Default" →
      (handleSettingsChanged env (initFromSettings env file store)
          { store with buildConfiguration := b' } true).updateConfigProvider = true ∧
      (handleSettingsChanged env (initFromSettings env file store)
          { store with buildConfiguration := b' } true).reparseCount = 1) ∧
    (∀ (env : Env) (file : ConfigFile) (store : SettingsStore) (bl' : Option String),
      env.hasWorkspaceFolders = true →
      storedPathDirectB store.buildLog = true →
      bl' ≠ store.buildLog →
      (handleSettingsChanged env (initFromSettings env file store)
          { store with buildLog := bl' } true).updateConfigProvider = true ∧
      (handleSettingsChanged env (initFromSettings env file store)
          { store with buildLog := bl' } true).reparseCount = 1) ∧
    (∀ (env : Env) (file : ConfigFile) (store : SettingsStore) (mp' : Option String),
      env.hasWorkspaceFolders = true →
      mp' ≠ store.makePath →
      (handleSettingsChanged env (initFromSettings env file store)
          { store with makePath := mp' } true).updateConfigProvider = true ∧
      (handleSettingsChanged env (initFromSettings env file store)
          { store with makePath := mp' } true).reparseCount = 1) ∧
    (∀ (env : Env) (s : ExtensionState) (store : SettingsStore) (affects : Bool),
      (handleSettingsChanged env s store affects).reparseCount ≤ 1) := by
  refine ⟨?_, ?_, ?_, ?_, ?_, ?_, hsc_reparseCount_le_one⟩
  · intro env file store e' h1 hbc hdir
    have hcfg : cfgChangedB (initFromSettings env file store)
        { store with extensionLog := e' } = false :=
      cfgChangedB_synced _ _ (init_cm env file store) hbc
    have htar : targetChangedB (initFromSettings env file store)
        { store with extensionLog := e' } = false :=
      targetChangedB_synced _ _ (init_ct env file store)
    have hbl : buildLogChangedB (initFromSettings env file store)
        { store with extensionLog := e' } = false :=
      buildLogChangedB_of_eq _ _
        ((init_bl env file store).trans (readBuildLog_direct env store hdir))
    have hmp : makePathChangedB (initFromSettings env file store)
        { store with extensionLog := e' } = false :=
      makePathChangedB_of_eq _ _ (init_mp env file store)
    have hany : anyRelevantChangedB (initFromSettings env file store)
        { store with extensionLog := e' } = false := by
      unfold anyRelevantChangedB
      rw [hcfg, htar, hbl, hmp]
      rfl
    rw [hsc_updateConfigProvider _ _ _ h1 (init_ign env file store),
      hsc_reparseCount _ _ _ h1 (init_ign env file store), hany]
    simp
  · intro env file store l' h1 hbc hdir
    have hcfg : cfgChangedB (initFromSettings env file store)
        { store with launchConfiguration := l' } = false :=
      cfgChangedB_synced _ _ (init_cm env file store) hbc
    have htar : targetChangedB (initFromSettings env file store)
        { store with launchConfiguration := l' } = false :=
      targetChangedB_synced _ _ (init_ct env file store)
    have hbl : buildLogChangedB (initFromSettings env file store)
        { store with launchConfiguration := l' } = false :=
      buildLogChangedB_of_eq _ _
        ((init_bl env file store).trans (readBuildLog_direct env store hdir))
    have hmp : makePathChangedB (initFromSettings env file store)
        { store with launchConfiguration := l' } = false :=
      makePathChangedB_of_eq _ _ (init_mp env file store)
    have hany : anyRelevantChangedB (initFromSettings env file store)
        { store with launchConfiguration := l' } = false := by
      unfold anyRelevantChangedB
      rw [hcfg, htar, hbl, hmp]
      rfl
    rw [hsc_updateConfigProvider _ _ _ h1 (init_ign env file store),
      hsc_reparseCount _ _ _ h1 (init_ign env file store), hany]
    simp
  · intro env file store t' h1 hch
    have htar : targetChangedB (initFromSettings env file store)
        { store with buildTarget := t' } = true := by
      apply targetChangedB_freshly
      rw [init_ct env file store]
      exact hch
    have hany : anyRelevantChangedB (initFromSettings env file store)
        { store with buildTarget := t' } = true := by
      unfold anyRelevantChangedB
      rw [htar]
      simp
    rw [hsc_updateConfigProvider _ _ _ h1 (init_ign env file store),
      hsc_reparseCount _ _ _ h1 (init_ign env file store), hany]
    simp
  · intro env file store b' h1 hch
    have hcfg : cfgChangedB (initFromSettings env file store)
        { store with buildConfiguration := b' } = true := by
      apply cfgChangedB_freshly
      · rw [init_cm env file store]
        exact jsOrS_ne_empty _ (by decide)
      · rw [init_cm env file store]
        exact hch
    have hany : anyRelevantChangedB (initFromSettings env file store)
        { store with buildConfiguration := b' } = true := by
      unfold anyRelevantChangedB
      rw [hcfg]
      simp
    rw [hsc_updateConfigProvider _ _ _ h1 (init_ign env file store),
      hsc_reparseCount _ _ _ h1 (init_ign env file store), hany]
    simp
  · intro env file store bl' h1 hdir hch
    have hbl : buildLogChangedB (initFromSettings env file store)
        { store with buildLog := bl' } = true := by
      apply buildLogChangedB_of_ne
      rw [init_bl env file store, readBuildLog_direct env store hdir]
      exact hch
    have hany : anyRelevantChangedB (initFromSettings env file store)
        { store with buildLog := bl' } = true := by
      unfold anyRelevantChangedB
      rw [hbl]
      simp
    rw [hsc_updateConfigProvider _ _ _ h1 (init_ign env file store),
      hsc_reparseCount _ _ _ h1 (init_ign env file store), hany]
    simp
  · intro env file store mp' h1 hch
    have hmp : makePathChangedB (initFromSettings env file store)
        { store with makePath := mp' } = true := by
      apply makePathChangedB_of_ne
      rw [init_mp env file store]
      exact hch
    have hany : anyRelevantChangedB (initFromSettings env file store)
        { store with makePath := mp' } = true := by
      unfold anyRelevantChangedB
      rw [hmp]
      simp
    rw [hsc_updateConfigProvider _ _ _ h1 (init_ign env file store),
      hsc_reparseCount _ _ _ h1 (init_ign env file store), hany]
    simp

/-- Claim C5 counterexample: with a relative stored `buildLog`
(`"logs/b.log"`), a notification that changes only the `extensionLog` key sets
the reparse-required flag and requests a reparse, because the handler compares
the raw stored build log against the absolutized in-memory mirror. -/
theorem claim_C5_counterexample :
    storeC5x.buildConfiguration = storeC5.buildConfiguration ∧
    storeC5x.buildTarget = storeC5.buildTarget ∧
    storeC5x.launchConfiguration = storeC5.launchConfiguration ∧
    storeC5x.buildLog = storeC5.buildLog ∧
    storeC5x.makePath = storeC5.makePath ∧
    storeC5x.extensionLog ≠ storeC5.extensionLog ∧
    (handleSettingsChanged envC5 stateC5 storeC5x true).updateConfigProvider = true ∧
    (handleSettingsChanged envC5 stateC5 storeC5x true).reparseCount = 1 := by
  decide

theorem claim_C5_witness :
    envC5w.hasWorkspaceFolders = true ∧
    jsOrS (some "b") "" ≠ jsOrS storeC5w.buildTarget "" ∧
    ((handleSettingsChanged envC5w (initFromSettings envC5w .missing storeC5w)
        { storeC5w with buildTarget := some "b" } true).updateConfigProvider = true ∧
      (handleSettingsChanged envC5w (initFromSettings envC5w .missing storeC5w)
        { storeC5w with buildTarget := some "b" } true).reparseCount = 1) :=
  ⟨rfl, by decide, claim_C5.2.2.1 envC5w .missing storeC5w (some "b") rfl (by decide)⟩

/-- Claim C2 (amended): none of the three programmatic setters touches the
reconciliation guard (`ignoreSettingsChanged`), so their settings writes do NOT
occur with the guard held; re-entry is instead prevented by updating the
in-memory value before the write: with memory initialized from the store (and
the stored build log absent-or-absolute, stored configuration name not `""`
where the relevant comparison needs it), the change notification fired by the
self-write requests no further reparse — the setter's own single direct
reparse (one for configuration and target, none for launch) is all that runs. -/
theorem claim_C2 :
    (∀ (env : Env) (name : String) (s : ExtensionState) (store : SettingsStore),
      (setConfigurationByName env name s store).state.ignoreSettingsChanged
          = s.ignoreSettingsChanged ∧
      (setTargetByName name s store).state.ignoreSettingsChanged = s.ignoreSettingsChanged ∧
      (setLaunchConfigurationByName name s store).state.ignoreSettingsChanged
          = s.ignoreSettingsChanged) ∧
    (∀ (env : Env) (file : ConfigFile) (store : SettingsStore) (name : String),
      env.hasWorkspaceFolders = true →
      storedPathDirectB store.buildLog = true →
      (setConfigurationByName env name (initFromSettings env file store) store).reparseCount
          = 1 ∧
      (handleSettingsChanged env
          (setConfigurationByName env name (initFromSettings env file store) store).state
          (setConfigurationByName env name (initFromSettings env file store) store).store
          true).reparseCount = 0) ∧
    (∀ (env : Env) (file : ConfigFile) (store : SettingsStore) (name : String),
      env.hasWorkspaceFolders = true →
      store.buildConfiguration ≠ some "" →
      storedPathDirectB store.buildLog = true →
      (setTargetByName name (initFromSettings env file store) store).reparseCount = 1 ∧
      (handleSettingsChanged env
          (setTargetByName name (initFromSettings env file store) store).state
          (setTargetByName name (initFromSettings env file store) store).store
          true).reparseCount = 0) ∧
    (∀ (env : Env) (file : ConfigFile) (store : SettingsStore) (lcName : String),
      env.hasWorkspaceFolders = true →
      store.buildConfiguration ≠ some "" →
      storedPathDirectB store.buildLog = true →
      (setLaunchConfigurationByName lcName (initFromSettings env file store) store).reparseCount
          = 0 ∧
      (handleSettingsChanged env
          (setLaunchConfigurationByName lcName (initFromSettings env file store) store).state
          (setLaunchConfigurationByName lcName (initFromSettings env file store) store).store
          true).reparseCount = 0) := by
  refine ⟨fun env name s store => ⟨rfl, rfl, rfl⟩, ?_, ?_, ?_⟩
  · intro env file store name h1 hdir
    refine ⟨rfl, ?_⟩
    have hcfg : cfgChangedB
        (setConfigurationByName env name (initFromSettings env file store) store).state
        (setConfigurationByName env name (initFromSettings env file store) store).store
          = false :=
      cfgChangedB_of_eq _ _ rfl
    have htar : targetChangedB
        (setConfigurationByName env name (initFromSettings env file store) store).state
        (setConfigurationByName env name (initFromSettings env file store) store).store
          = false :=
      targetChangedB_synced _ _ rfl
    have hbl : buildLogChangedB
        (setConfigurationByName env name (initFromSettings env file store) store).state
        (setConfigurationByName env name (initFromSettings env file store) store).store
          = false :=
      buildLogChangedB_of_eq _ _ (readBuildLog_direct env store hdir)
    have hmp : makePathChangedB
        (setConfigurationByName env name (initFromSettings env file store) store).state
        (setConfigurationByName env name (initFromSettings env file store) store).store
          = false :=
      makePathChangedB_of_eq _ _ rfl
    have hany : anyRelevantChangedB
        (setConfigurationByName env name (initFromSettings env file store) store).state
        (setConfigurationByName env name (initFromSettings env file store) store).store
          = false := by
      unfold anyRelevantChangedB
      rw [hcfg, htar, hbl, hmp]
      rfl
    rw [hsc_reparseCount _ _ _ h1 rfl, hany]
    rfl
  · intro env file store name h1 hbc hdir
    refine ⟨rfl, ?_⟩
    have hcfg : cfgChangedB
        (setTargetByName name (initFromSettings env file store) store).state
        (setTargetByName name (initFromSettings env file store) store).store
          = false :=
      cfgChangedB_synced _ _ rfl hbc
    have htar : targetChangedB
        (setTargetByName name (initFromSettings env file store) store).state
        (setTargetByName name (initFromSettings env file store) store).store
          = false :=
      targetChangedB_of_eq _ _ rfl
    have hbl : buildLogChangedB
        (setTargetByName name (initFromSettings env file store) store).state
        (setTargetByName name (initFromSettings env file store) store).store
          = false :=
      buildLogChangedB_of_eq _ _ (readBuildLog_direct env store hdir)
    have hmp : makePathChangedB
        (setTargetByName name (initFromSettings env file store) store).state
        (setTargetByName name (initFromSettings env file store) store).store
          = false :=
      makePathChangedB_of_eq _ _ rfl
    have hany : anyRelevantChangedB
        (setTargetByName name (initFromSettings env file store) store).state
        (setTargetByName name (initFromSettings env file store) store).store
          = false := by
      unfold anyRelevantChangedB
      rw [hcfg, htar, hbl, hmp]
      rfl
    rw [hsc_reparseCount _ _ _ h1 rfl, hany]
    rfl
  · intro env file store lcName h1 hbc hdir
    refine ⟨rfl, ?_⟩
    have hcfg : cfgChangedB
        (setLaunchConfigurationByName lcName (initFromSettings env file store) store).state
        (setLaunchConfigurationByName lcName (initFromSettings env file store) store).store
          = false :=
      cfgChangedB_synced _ _ rfl hbc
    have htar : targetChangedB
        (setLaunchConfigurationByName lcName (initFromSettings env file store) store).state
        (setLaunchConfigurationByName lcName (initFromSettings env file store) store).store
          = false :=
      targetChangedB_synced _ _ rfl
    have hbl : buildLogChangedB
        (setLaunchConfigurationByName lcName (initFromSettings env file store) store).state
        (setLaunchConfigurationByName lcName (initFromSettings env file store) store).store
          = false :=
      buildLogChangedB_of_eq _ _ (readBuildLog_direct env store hdir)
    have hmp : makePathChangedB
        (setLaunchConfigurationByName lcName (initFromSettings env file store) store).state
        (setLaunchConfigurationByName lcName (initFromSettings env file store) store).store
          = false :=
      makePathChangedB_of_eq _ _ rfl
    have hany : anyRelevantChangedB
        (setLaunchConfigurationByName lcName (initFromSettings env file store) store).state
        (setLaunchConfigurationByName lcName (initFromSettings env file store) store).store
          = false := by
      unfold anyRelevantChangedB
      rw [hcfg, htar, hbl, hmp]
      rfl
    rw [hsc_reparseCount _ _ _ h1 rfl, hany]
    rfl

/-- Claim C2 counterexample: `setConfigurationByName` performs a store write
(the store changes) while the guard is false before, during, and after the
call — the claim that every programmatic write occurs with the guard held is
false on the code. -/
theorem claim_C2_counterexample :
    stateC2.ignoreSettingsChanged = false ∧
    (setConfigurationByName envC2 "Release" stateC2 storeC2).store ≠ storeC2 ∧
    (setConfigurationByName envC2 "Release" stateC2 storeC2).state.ignoreSettingsChanged
      = false := by
  decide

theorem claim_C2_witness :
    envC2.hasWorkspaceFolders = true ∧
    storedPathDirectB storeC2.buildLog = true ∧
    ((setConfigurationByName envC2 "Release" (initFromSettings envC2 .missing storeC2)
        storeC2).reparseCount = 1 ∧
      (handleSettingsChanged envC2
          (setConfigurationByName envC2 "Release" (initFromSettings envC2 .missing storeC2)
            storeC2).state
          (setConfigurationByName envC2 "Release" (initFromSettings envC2 .missing storeC2)
            storeC2).store
          true).reparseCount = 0) :=
  ⟨rfl, by decide, claim_C2.2.1 envC2 .missing storeC2 "Release" rfl (by decide)⟩

/-- Claim C1 (amended): for every launch record whose `cwd` and `binary` are
well-formed absolute paths (leading `/`, no `//`, no trailing `/`), whose
`cwd`, `binary` and `args` contain none of `>`, `(`, `)`, `,` and no line
terminator, and whose `args` sequence is non-empty,
`stringToLaunchConfiguration (launchConfigurationToString r) = some r`.
(For empty `args` the round trip fails — see the counterexample.) -/
theorem claim_C1 :
    ∀ r : LaunchConfiguration,
      pathIsAbsolute r.cwd = true →
      pathIsAbsolute r.binary = true →
      noAdjacentSlashes r.binary.data = true →
      r.binary.data.getLast? ≠ some '/' →
      (∀ c ∈ r.cwd.data,
        ¬(c = '>' ∨ c = '(' ∨ c = ')' ∨ c = ',' ∨ c = '\n' ∨ c = '\r')) →
      (∀ c ∈ r.binary.data,
        ¬(c = '>' ∨ c = '(' ∨ c = ')' ∨ c = ',' ∨ c = '\n' ∨ c = '\r')) →
      (∀ a ∈ r.args, ∀ c ∈ a.data,
        ¬(c = '>' ∨ c = '(' ∨ c = ')' ∨ c = ',' ∨ c = '\n' ∨ c = '\r')) →
      r.args ≠ [] →
      stringToLaunchConfiguration (launchConfigurationToString r) = some r := by
  intro r hcabs hbabs hnd hlast hcF hbF haF hargs
  have hbR : ∀ c : Char, (c = '>' ∨ c = '(' ∨ c = ')' ∨ c = ',' ∨ c = '\n' ∨ c = '\r') →
      c ∉ (makeRelPath r.binary r.cwd).data := by
    intro c hc
    exact not_mem_makeRelPath _ _ (fun hm => hbF c hm hc)
  have hJ : ∀ c : Char, c ≠ ',' →
      (c = '>' ∨ c = '(' ∨ c = ')' ∨ c = ',' ∨ c = '\n' ∨ c = '\r') →
      c ∉ joinArgsChars r.args := by
    intro c hc hcin
    exact not_mem_joinArgsChars hc (fun a ha hm => haF a ha c hm hcin)
  have henc : (launchConfigurationToString r).data
      = r.cwd.data ++ '>' :: (makeRelPath r.binary r.cwd).data
        ++ '(' :: joinArgsChars r.args ++ [')'] := rfl
  have hnl : '\n' ∉ (launchConfigurationToString r).data := by
    rw [henc]
    exact not_mem_encoded _ _ _ (fun hm => hcF _ hm (by decide))
      (hbR '\n' (by decide)) (hJ '\n' (by decide) (by decide))
      (by decide) (by decide) (by decide)
  unfold stringToLaunchConfiguration
  rw [splitOnChar_of_not_mem hnl]
  have hmatch : matchLCLine (launchConfigurationToString r).data
      = some (r.cwd.data, (makeRelPath r.binary r.cwd).data, joinArgsChars r.args) := by
    rw [henc]
    exact matchLCLine_encoded _ _ _ (hbR '>' (by decide)) (hJ '(' (by decide) (by decide))
  simp only [firstMatch, hmatch]
  have hbin : makeFullPath (⟨(makeRelPath r.binary r.cwd).data⟩ : String)
      (⟨r.cwd.data⟩ : String) = r.binary := by
    have e1 : (⟨(makeRelPath r.binary r.cwd).data⟩ : String) = makeRelPath r.binary r.cwd := by
      cases h : makeRelPath r.binary r.cwd
      rfl
    have e2 : (⟨r.cwd.data⟩ : String) = r.cwd := by
      cases h : r.cwd
      rfl
    rw [e1, e2]
    exact makeFullPath_makeRelPath r.binary r.cwd hcabs hbabs
      (chain'_of_noAdjacentSlashes hnd) hlast
  have hargs2 : (splitOnChar ',' (joinArgsChars r.args)).map String.mk = r.args := by
    rw [splitOnChar_joinArgsChars hargs (fun a ha hm => haF a ha ',' hm (by decide))]
    exact map_mk_map_data r.args
  have e2 : (⟨r.cwd.data⟩ : String) = r.cwd := by
    cases h : r.cwd
    rfl
  rw [hbin, hargs2, e2]

/-- Claim C1 counterexample: for a record with empty `args` — a case the claim
explicitly includes — the round trip fails: `[].join(",")` gives `""` and JS
`"".split(",")` gives `[""]`, so the decoded record has `args = [""]`. -/
theorem claim_C1_counterexample :
    stringToLaunchConfiguration
        (launchConfigurationToString { binary := "/p/bin", cwd := "/p", args := [] })
      ≠ some { binary := "/p/bin", cwd := "/p", args := ([] : List String) } := by
  decide

theorem claim_C1_witness :
    (pathIsAbsolute "/p" = true ∧
      pathIsAbsolute "/p/bin" = true ∧
      noAdjacentSlashes ("/p/bin" : String).data = true ∧
      ("/p/bin" : String).data.getLast? ≠ some '/' ∧
      (["alpha", "beta"] : List String) ≠ []) ∧
    stringToLaunchConfiguration
        (launchConfigurationToString
          { binary := "/p/bin", cwd := "/p", args := ["alpha", "beta"] })
      = some { binary := "/p/bin", cwd := "/p", args := ["alpha", "beta"] } :=
  ⟨⟨by decide, by decide, by decide, by decide, by decide⟩,
    claim_C1 { binary := "/p/bin", cwd := "/p", args := ["alpha", "beta"] }
      (by decide) (by decide) (by decide) (by decide)
      (by decide) (by decide) (by decide) (by decide)⟩

end MakefileTools
